import Mathlib

/-!
Shallow embedding of the streaming-dataframe core
(`pandas_streaming/df/dataframe.py`) and proofs about its
schema checking, head/tail, sampling, concat, merge and groupby logic.

A chunked table is modelled as a `List` of chunks.  For claims about
grouping and joining, a row is a `(key, value)` pair; for claims about
schema validation, a chunk is abstracted by its column names, its dtypes
and its row count; for claims about the constructor flags, a streaming
dataframe is abstracted by its `check_schema` and `stable` flags.
-/

/-! ### Rows and per-chunk group-by (models pandas groupby(...).sum()) -/

/-- A row for the aggregation and merge claims: a group key and a value. -/
abbrev Row : Type := Nat × Int

/-- Total of the value column over the rows whose key equals the argument. -/
def keySum (rows : List Row) (k : Nat) : Int :=
  ((rows.filter (fun r => r.1 == k)).map (fun r => r.2)).sum

/-- Insert a key into a strictly increasing key list, skipping duplicates.
This realises the sorted distinct key index that pandas groupby produces. -/
def insertKey (k : Nat) : List Nat → List Nat
  | [] => [k]
  | x :: xs => if k < x then k :: x :: xs else if k = x then x :: xs else x :: insertKey k xs

/-- Sorted list of the distinct keys of a list of rows. -/
def keyList (rows : List Row) : List Nat :=
  rows.foldr (fun r acc => insertKey r.1 acc) []

/-- Model of the default aggregation of the source (a groupby followed by
a sum): one output row per distinct key, keys in increasing order. -/
def groupbySum (rows : List Row) : List Row :=
  (keyList rows).map (fun k => (k, keySum rows k))

/-! ### StreamingDataFrame.groupby (batch) and groupby_streaming (strategy cum)

The batch strategy collects one per-chunk aggregate per chunk
(lambda_agg applied to the chunk's groupby), concatenates the partials
and applies the second aggregation once.  The cum strategy keeps the
running concatenation of the per-chunk aggregates and yields its
re-aggregation at every chunk; the accumulator starts as None. -/

/-- Batch groupby of the source: per-chunk group-sums, concatenated and
grouped again (`conc = pandas.concat(agg)` then a final group-sum). -/
def groupby_batch (chunks : List (List Row)) : List Row :=
  groupbySum ((chunks.map groupbySum).flatten)

/-- Model of the generator iterate_cum of groupby_streaming: the first
state is None (first chunk yields the re-aggregation of its own partial),
afterwards the accumulator is the concatenation of all partials so far. -/
def iterate_cum_aux : Option (List Row) → List (List Row) → List (List Row)
  | _, [] => []
  | none, df :: rest =>
    groupbySum (groupbySum df) :: iterate_cum_aux (some (groupbySum df)) rest
  | some agg, df :: rest =>
    groupbySum (agg ++ groupbySum df) :: iterate_cum_aux (some (agg ++ groupbySum df)) rest

/-- Chunks emitted by groupby_streaming with strategy cum. -/
def iterate_cum (chunks : List (List Row)) : List (List Row) :=
  iterate_cum_aux none chunks

/-! ### StreamingDataFrame.head and tail -/

/-- Loop of head: h = df.head(n); total += len(h); append h; stop when
total >= n, else n -= len(h).  Both the running total and the shrinking
n are threaded exactly as the source does. -/
def headAux (n total : Nat) (st : List (List α)) : List (List α) → List (List α)
  | [] => st
  | df :: rest =>
    let h := df.take n
    if total + h.length ≥ n then st ++ [h]
    else headAux (n - h.length) (total + h.length) (st ++ [h]) rest

/-- Rows returned by head(n) (the source concatenates the collected pieces). -/
def headModel (n : Nat) (chunks : List (List α)) : List α :=
  (headAux n 0 [] chunks).flatten

/-- tail(n) keeps only the tail of the chunk seen last; with no chunk the
variable h is unbound, modelled as none. -/
def tailModel (n : Nat) (chunks : List (List α)) : Option (List α) :=
  (chunks.map (fun df => df.drop (df.length - n))).getLast?

/-! ### Reservoir sampling

A chunk source is invocation-indexed: `parent j` is the chunk sequence
produced by the (j+1)-th call of the iterator factory.  Pass 1 of
_reservoir_sampling walks invocation 0; every iteration of the returned
StreamingDataFrame re-invokes the parent (invocation j+1 for the j-th
walk).  The random draws are threaded as streams: `xs` models
numpy.random.random() and `ks` models numpy.random.randint, both indexed
by the running row count. -/

/-- The support of numpy.random.randint(low, high): the upper bound is
exclusive, so the values are low, ..., high-1. -/
def randint_support (low high : Nat) : List Nat :=
  (List.range (high - low)).map (fun j => j + low)

/-- Slots the replacement branch can pick: the source draws
nrandom.randint(0, len(indices) - 1). -/
def replacement_slot_support (lenIndices : Nat) : List Nat :=
  randint_support 0 (lenIndices - 1)

/-- One row of pass 1: state is (rows seen, reservoir of row identifiers).
If the reservoir is not full the identifier is appended; otherwise with
x * n < seen - n the slot drawn from ks replaces, else the row is dropped. -/
def pass1Row (n : Nat) (xs : Nat → ℚ) (ks : Nat → Nat)
    (st : Nat × List (Nat × Nat)) (rowId : Nat × Nat) : Nat × List (Nat × Nat) :=
  let seen := st.1 + 1
  let indices := st.2
  if indices.length < n then (seen, indices ++ [rowId])
  else if xs seen * (n : ℚ) < (seen : ℚ) - (n : ℚ) then (seen, indices.set (ks seen) rowId)
  else (seen, indices)

/-- Row identifiers (chunk index, in-chunk index) of a chunked table. -/
def rowIds (chunks : List (List Nat)) : List (Nat × Nat) :=
  (chunks.enum.map (fun p => p.2.enum.map (fun q => (p.1, q.1)))).flatten

/-- Pass 1 of _reservoir_sampling: the retained row identifiers. -/
def pass1 (chunks : List (List Nat)) (n : Nat) (xs : Nat → ℚ) (ks : Nat → Nat) :
    List (Nat × Nat) :=
  ((rowIds chunks).foldl (pass1Row n xs ks) (0, [])).2

/-- Buffer regrouping of reservoir_iterate: the buffer is flushed as a
chunk whenever it reaches csize, the remainder is flushed at the end. -/
def chunkEvery (csize : Nat) (l : List α) : List (List α) :=
  let st := l.foldl
    (fun st r =>
      let buf := st.2 ++ [r]
      if buf.length ≥ csize then (st.1 ++ [buf], ([] : List α)) else (st.1, buf))
    (([] : List (List α)), ([] : List α))
  if st.2.length > 0 then st.1 ++ [st.2] else st.1

/-- Pass 2 generator reservoir_iterate: keep the rows whose identifier is
in the retained set, in order, regrouped into chunks of size chunksize. -/
def reservoir_iterate (chunks : List (List Nat)) (indices : List (Nat × Nat))
    (chunksize : Nat) : List (List Nat) :=
  chunkEvery chunksize
    ((chunks.enum.map
      (fun p => p.2.enum.filterMap
        (fun q => if (p.1, q.1) ∈ indices then some q.2 else none))).flatten)

/-- _reservoir_sampling: rejects cache=False; otherwise computes the
retained identifiers from one walk of the parent (invocation 0) and
returns a StreamingDataFrame built with no constructor keywords, so its
check_schema and stable flags are both the default True, and whose j-th
iteration re-walks the parent (invocation j+1) through reservoir_iterate
with the fixed chunk size 1000. -/
def reservoir_sampling (parent : Nat → List (List Nat)) (cache : Bool) (n : Nat)
    (xs : Nat → ℚ) (ks : Nat → Nat) :
    Except String ((Nat → List (List Nat)) × Bool × Bool) :=
  if !cache then Except.error "cache=False is not available for reservoir sampling."
  else
    Except.ok
      (fun j => reservoir_iterate (parent (j + 1)) (pass1 (parent 0) n xs ks) 1000,
       true, true)

/-- Chunks produced by the j-th iteration of a sampling result (empty when
the call failed). -/
def resultChunks (r : Except String ((Nat → List (List Nat)) × Bool × Bool))
    (j : Nat) : List (List Nat) :=
  match r with
  | Except.ok (src, _, _) => src j
  | Except.error _ => []

/-- An unstable parent source: its j-th invocation yields one chunk whose
single row is the invocation number. -/
def parentU : Nat → List (List Nat) := fun j => [[j]]

/-- Degenerate random stream for runs where the reservoir never fills up. -/
def xs0 : Nat → ℚ := fun _ => 0

/-- Degenerate slot stream for runs where the reservoir never fills up. -/
def ks0 : Nat → Nat := fun _ => 0

/-! ### sample -/

/-- Outcomes of StreamingDataFrame.sample, by code path. -/
inductive SampleOutcome
  | reservoirTable
  | streamSample
  | cachedSample
  | valueError (msg : String)
  | keyError
deriving DecidableEq

/-- Control flow of sample: the reservoir path is taken when reservoir is
true or the kwargs contain n; on it, frac is rejected, kwargs access to n
may raise KeyError, and _reservoir_sampling rejects cache=False.  The
other path returns a mapped sample, materialised first when cache is true. -/
def sampleModel (reservoir cache hasN hasFrac : Bool) : SampleOutcome :=
  if reservoir || hasN then
    if hasFrac then SampleOutcome.valueError "frac cannot be specified for reservoir sampling."
    else if !hasN then SampleOutcome.keyError
    else if !cache then SampleOutcome.valueError "cache=False is not available for reservoir sampling."
    else SampleOutcome.reservoirTable
  else if cache then SampleOutcome.cachedSample
  else SampleOutcome.streamSample

/-! ### Schema-abstracted chunks, __iter__ checking and concat -/

/-- A chunk abstracted by its column names, dtypes and row count. -/
structure Frame where
  cols : List String
  dts : List String
  nrows : Nat
deriving DecidableEq

/-- Errors of the per-pass schema validation of __iter__. -/
inductive SchemaErr
  | nameMismatch (offset : Nat) (first cur : List String)
  | typeMismatch (offset : Nat) (first cur : List String)
deriving DecidableEq

/-- Loop of __iter__ after the reference schema was captured: names are
compared first, then dtypes; the row offset is accumulated after the
check, so an error carries the rows of all chunks before the offender. -/
def iterAux (check : Bool) (firstCols firstDts : List String) (rows : Nat) :
    List Frame → List Frame × Option SchemaErr
  | [] => ([], none)
  | it :: rest =>
    if check && !(it.cols == firstCols) then
      ([], some (SchemaErr.nameMismatch rows firstCols it.cols))
    else if check && !(it.dts == firstDts) then
      ([], some (SchemaErr.typeMismatch rows firstDts it.dts))
    else
      let r := iterAux check firstCols firstDts (rows + it.nrows) rest
      (it :: r.1, r.2)

/-- __iter__: the first chunk fixes the reference schema and is always
yielded; later chunks are validated when checking is enabled.  Returns
the yielded chunks and the error that stopped the pass, if any. -/
def iterSDF (check : Bool) : List Frame → List Frame × Option SchemaErr
  | [] => ([], none)
  | it :: rest =>
    let r := iterAux check it.cols it.dts it.nrows rest
    (it :: r.1, r.2)

/-- Error raised by iterator_concat of _concatv; the index is the value
interpolated into the message others[...], and the flag tells a dtype
mismatch from a column-name mismatch. -/
structure ConcatErr where
  idx : Nat
  typeMismatch : Bool
deriving DecidableEq

/-- Inner loop of iterator_concat over the later operands: only the
chunk at enumerate index 0 of each operand is checked (the check flag is
cleared after it), and the interpolated index is that enumerate index,
hence always 0. -/
def concatOthers (columns dts : List String) :
    List (List Frame) → List Frame × Option ConcatErr
  | [] => ([], none)
  | obj :: rest =>
    match obj with
    | [] => concatOthers columns dts rest
    | df :: dfs =>
      if df.cols ≠ columns then ([], some ⟨0, false⟩)
      else if df.dts ≠ dts then ([], some ⟨0, true⟩)
      else
        let r := concatOthers columns dts rest
        (df :: dfs ++ r.1, r.2)

/-- iterator_concat of _concatv: all chunks of self are yielded while the
first one records the schema; with an empty self the schema is never
recorded and the first check dereferences None, modelled as none. -/
def iterator_concat (this : List Frame) (lothers : List (List Frame)) :
    Option (List Frame × Option ConcatErr) :=
  match this, lothers with
  | [], _ :: _ => none
  | [], [] => some ([], none)
  | df0 :: rest, _ =>
    let r := concatOthers df0.cols df0.dts lothers
    some ((df0 :: rest) ++ r.1, r.2)

/-! ### merge -/

/-- Joined row: key, left value, right value. -/
abbrev JRow : Type := Nat × Int × Int

/-- Inner join of one left row against a chunk of right rows. -/
def mergeRow (a : Row) (df2 : List Row) : List JRow :=
  df2.filterMap (fun b => if a.1 == b.1 then some (a.1, a.2, b.2) else none)

/-- pandas merge of two chunks on the key column (inner join). -/
def mergeDF (df1 df2 : List Row) : List JRow :=
  (df1.map (fun a => mergeRow a df2)).flatten

/-- iterator_merge: a double loop, every left chunk joined against every
right chunk, the pairwise results yielded in order. -/
def iterator_merge (sdf1 sdf2 : List (List Row)) : List (List JRow) :=
  (sdf1.map (fun df1 => sdf2.map (fun df2 => mergeDF df1 df2))).flatten

/-! ### Constructor parameter handling -/

/-- read_json validation: chunksize defaults to 100000 and a non-positive
value is rejected. -/
def read_json_model (chunksize : Option Int) : Except String Int :=
  if chunksize.getD 100000 ≤ 0 then Except.error "chunksize must be a positive integer"
  else Except.ok (chunksize.getD 100000)

/-- read_csv validation: iterator must not be disabled, and the guard
`not kwargs.get('chunksize', 100000)` only fires on a falsy value, so
among integers only on 0; afterwards an absent chunksize is set to 100000. -/
def read_csv_model (iterator : Bool) (chunksize : Option Int) : Except String Int :=
  if !iterator then Except.error "If specified, iterator must be True."
  else if chunksize.getD 100000 = 0 then Except.error "If specified, chunksize must not be None."
  else Except.ok (chunksize.getD 100000)

/-- read_str performs exactly the validation of read_csv. -/
def read_str_model (iterator : Bool) (chunksize : Option Int) : Except String Int :=
  if !iterator then Except.error "If specified, iterator must be True."
  else if chunksize.getD 100000 = 0 then Except.error "If specified, chunksize must not be None."
  else Except.ok (chunksize.getD 100000)

/-- read_df: an absent chunksize becomes df.shape[0], the row count of
the input, with no positivity check. -/
def read_df_chunksize (nrows : Nat) (chunksize : Option Nat) : Nat :=
  chunksize.getD nrows

/-! ### Constructor flags of derived tables -/

/-- The two constructor flags of a StreamingDataFrame. -/
structure SDF where
  check_schema : Bool
  stable : Bool
deriving DecidableEq

/-- The constructor with explicit keyword values (defaults are
check_schema=True, stable=True). -/
def mkStreamingDataFrame (check_schema stable : Bool) : SDF :=
  ⟨check_schema, stable⟩

/-- Construction with **self.get_kwargs(): get_kwargs returns only
check_schema, so stable is left at its default True. -/
def fromKwargs (check_schema : Bool) : SDF :=
  mkStreamingDataFrame check_schema true

/-- Flags of the table returned by where. -/
def whereSDF (s : SDF) : SDF := fromKwargs s.check_schema

/-- Flags of the table returned by apply. -/
def applySDF (s : SDF) : SDF := fromKwargs s.check_schema

/-- Flags of the table returned by applymap. -/
def applymapSDF (s : SDF) : SDF := fromKwargs s.check_schema

/-- Flags of the table returned by merge. -/
def mergeSDF (s : SDF) : SDF := fromKwargs s.check_schema

/-- Flags of the table returned by concat (both _concath and _concatv). -/
def concatSDF (s : SDF) : SDF := fromKwargs s.check_schema

/-- Flags of the table returned by column selection (getitem). -/
def getitemSDF (s : SDF) : SDF := fromKwargs s.check_schema

/-- Flags of the table returned by add_column (both value kinds). -/
def addColumnSDF (s : SDF) : SDF := fromKwargs s.check_schema

/-- Flags of the table returned by fillna. -/
def fillnaSDF (s : SDF) : SDF := fromKwargs s.check_schema

/-- Flags of the table returned by groupby_streaming (both strategies). -/
def groupbyStreamingSDF (s : SDF) : SDF := fromKwargs s.check_schema

/-- Flags of a non-cached non-reservoir sample: the only construction
that passes stable=False explicitly. -/
def sampleNoncached (s : SDF) : SDF := mkStreamingDataFrame s.check_schema false

/-! ## Theorems -/

/-- C2: the claim that head(n) always returns min(n, total_rows) rows fails:
head mixes the running total with the already-decremented n, so head(3)
over four one-row chunks stops after two rows; and tail(n) only looks at
the chunk seen last, so tail(2) over two one-row chunks returns one row. -/
theorem head_tail_failing_eval :
    headModel 3 [[0], [1], [2], [3]] = ([0, 1] : List Nat) ∧
    (headModel 3 ([[0], [1], [2], [3]] : List (List Nat))).length ≠ min 3 4 ∧
    tailModel 2 [[0], [1]] = some ([1] : List Nat) := by
  refine ⟨rfl, ?_, rfl⟩
  decide

/-- C4: with a reservoir of n = 2 slots the replacement draw is
nrandom.randint(0, 1), whose support is only the slot 0, so slot n - 1 is
never a possible choice and the replacement is not uniform over all n slots. -/
theorem reservoir_replacement_slot_eval :
    replacement_slot_support 2 = [0] ∧ 1 ∉ replacement_slot_support 2 := by
  constructor
  · rfl
  · decide

/-- C3: cache=False is rejected as claimed, but cache=True does not
materialize: the returned source re-invokes the parent chunk source on
every iteration, so over the unstable parent (whose invocation j yields
the single row j) two walks of the sampled table disagree. -/
theorem reservoir_cache_not_materialized_eval :
    reservoir_sampling parentU false 1 xs0 ks0 =
      Except.error "cache=False is not available for reservoir sampling." ∧
    resultChunks (reservoir_sampling parentU true 1 xs0 ks0) 0 = [[1]] ∧
    resultChunks (reservoir_sampling parentU true 1 xs0 ks0) 1 = [[2]] ∧
    resultChunks (reservoir_sampling parentU true 1 xs0 ks0) 0 ≠
      resultChunks (reservoir_sampling parentU true 1 xs0 ks0) 1 := by
  refine ⟨rfl, ?_, ?_, ?_⟩ <;> decide

/-- C5: iterator_concat interpolates the enumerate index of the chunk
inside the offending operand, which is always 0 at check time; on input
where others[1] is the mismatching operand the error still reports 0. -/
theorem concat_mismatch_reported_index_eval :
    iterator_concat [⟨["a"], ["int64"], 1⟩]
        [[⟨["a"], ["int64"], 1⟩], [⟨["b"], ["int64"], 1⟩]] =
      some ([⟨["a"], ["int64"], 1⟩, ⟨["a"], ["int64"], 1⟩], some ⟨0, false⟩) ∧
    (Frame.mk ["b"] ["int64"] 1).cols ≠ (Frame.mk ["a"] ["int64"] 1).cols := by
  constructor
  · decide
  · decide

/-- C8 counterexample: read_csv accepts the non-positive chunk size -1
without an invalid-parameter error, and read_df without a chunk size
defaults to the row count of its input (7 here), not a fixed constant. -/
theorem chunksize_validation_counterexample :
    read_csv_model true (some (-1)) = Except.ok (-1) ∧
    ((-1 : Int) ≤ 0) ∧
    read_str_model true (some (-1)) = Except.ok (-1) ∧
    read_df_chunksize 7 none = 7 ∧ (7 : Nat) ≠ 100000 :=
  ⟨rfl, by decide, rfl, rfl, by decide⟩

/-- C8 amended: read_json rejects any non-positive chunk size and defaults
to 100000; read_csv and read_str reject only a zero chunk size (negative
values pass validation) and default to 100000; read_df defaults to the
input's row count rather than a fixed constant. -/
theorem chunksize_validation_amended (c : Int) (nrows : Nat) (h : c ≤ 0) :
    read_json_model (some c) = Except.error "chunksize must be a positive integer" ∧
    (read_csv_model true (some c) =
        Except.error "If specified, chunksize must not be None." ↔ c = 0) ∧
    (read_str_model true (some c) =
        Except.error "If specified, chunksize must not be None." ↔ c = 0) ∧
    read_json_model none = Except.ok 100000 ∧
    read_csv_model true none = Except.ok 100000 ∧
    read_str_model true none = Except.ok 100000 ∧
    read_df_chunksize nrows none = nrows := by
  refine ⟨?_, ?_, ?_, rfl, rfl, rfl, rfl⟩
  · simp [read_json_model, h]
  · by_cases hc : c = 0
    · subst hc; simp [read_csv_model]
    · simp [read_csv_model, hc]
  · by_cases hc : c = 0
    · subst hc; simp [read_str_model]
    · simp [read_str_model, hc]

/-- Witness: the amended chunk-size claim instantiated at c = -1, nrows = 7. -/
theorem chunksize_validation_amended_witness :
    ((-1 : Int) ≤ 0) ∧
    (read_json_model (some (-1)) = Except.error "chunksize must be a positive integer" ∧
     (read_csv_model true (some (-1)) =
         Except.error "If specified, chunksize must not be None." ↔ (-1 : Int) = 0) ∧
     (read_str_model true (some (-1)) =
         Except.error "If specified, chunksize must not be None." ↔ (-1 : Int) = 0) ∧
     read_json_model none = Except.ok 100000 ∧
     read_csv_model true none = Except.ok 100000 ∧
     read_str_model true none = Except.ok 100000 ∧
     read_df_chunksize 7 none = 7) :=
  ⟨by decide, chunksize_validation_amended (-1) 7 (by decide)⟩

/-- C9: every listed transformation builds its result with
**self.get_kwargs(), which carries only check_schema, so the derived
table keeps the parent's check_schema and gets the default stable=True,
even when the parent is an unstable non-cached sample. -/
theorem derived_flags_propagation (s : SDF) :
    (whereSDF s).check_schema = s.check_schema ∧ (whereSDF s).stable = true ∧
    (applySDF s).check_schema = s.check_schema ∧ (applySDF s).stable = true ∧
    (applymapSDF s).check_schema = s.check_schema ∧ (applymapSDF s).stable = true ∧
    (mergeSDF s).check_schema = s.check_schema ∧ (mergeSDF s).stable = true ∧
    (concatSDF s).check_schema = s.check_schema ∧ (concatSDF s).stable = true ∧
    (getitemSDF s).check_schema = s.check_schema ∧ (getitemSDF s).stable = true ∧
    (addColumnSDF s).check_schema = s.check_schema ∧ (addColumnSDF s).stable = true ∧
    (fillnaSDF s).check_schema = s.check_schema ∧ (fillnaSDF s).stable = true ∧
    (groupbyStreamingSDF s).check_schema = s.check_schema ∧
    (groupbyStreamingSDF s).stable = true ∧
    (sampleNoncached s).stable = false ∧
    (whereSDF (sampleNoncached s)).stable = true :=
  ⟨rfl, rfl, rfl, rfl, rfl, rfl, rfl, rfl, rfl, rfl, rfl, rfl, rfl, rfl, rfl, rfl,
   rfl, rfl, rfl, rfl⟩

/-- C10: an n keyword routes sample to the reservoir path even with
reservoir=False, and since cache defaults to False that call raises the
invalid-parameter error instead of drawing n rows; with cache=True the
same call does return the reservoir table. -/
theorem sample_n_requires_cache (reservoir : Bool) :
    sampleModel reservoir false true false =
      SampleOutcome.valueError "cache=False is not available for reservoir sampling." ∧
    sampleModel false true true false = SampleOutcome.reservoirTable := by
  cases reservoir <;> exact ⟨rfl, rfl⟩

/-- The schema check of __iter__ errors at the first offending chunk: the
good chunks before it match the reference schema, the offender's name list
differs, and the reported offset is the row count of everything before it. -/
theorem iterAux_name_mismatch (fc fd : List String) (bad : Frame) (rest : List Frame) :
    ∀ (good : List Frame) (rows : Nat),
      (∀ c ∈ good, c.cols = fc ∧ c.dts = fd) →
      bad.cols ≠ fc →
      iterAux true fc fd rows (good ++ bad :: rest) =
        (good, some (SchemaErr.nameMismatch (rows + (good.map Frame.nrows).sum) fc bad.cols)) := by
  intro good
  induction good with
  | nil =>
    intro rows _ hbad
    have hb : (bad.cols == fc) = false := by
      simp [beq_iff_eq]
      exact hbad
    simp [iterAux, hb]
  | cons c good ih =>
    intro rows hgood hbad
    have h1 : c.cols = fc := (hgood c (List.mem_cons_self c good)).1
    have h2 : c.dts = fd := (hgood c (List.mem_cons_self c good)).2
    have ih2 := ih (rows + c.nrows) (fun x hx => hgood x (List.mem_cons_of_mem c hx)) hbad
    simp [iterAux, h1, h2, ih2, Nat.add_assoc]

/-- C7: with schema checking enabled, iteration stops at the first chunk
whose column-name sequence differs from the first chunk's; it yields
exactly the chunks before it and raises a name-mismatch error carrying the
cumulative row offset and both name sequences. -/
theorem schema_name_mismatch_eager (c0 bad : Frame) (good rest : List Frame)
    (hgood : ∀ c ∈ good, c.cols = c0.cols ∧ c.dts = c0.dts)
    (hbad : bad.cols ≠ c0.cols) :
    iterSDF true (c0 :: (good ++ bad :: rest)) =
      (c0 :: good,
       some (SchemaErr.nameMismatch (c0.nrows + (good.map Frame.nrows).sum)
         c0.cols bad.cols)) := by
  simp [iterSDF, iterAux_name_mismatch c0.cols c0.dts bad rest good c0.nrows hgood hbad]

/-- Witness: the eager name-mismatch theorem at a concrete 4-chunk stream
whose third chunk renames the column; the reported offset is 2 + 3 = 5. -/
theorem schema_name_mismatch_eager_witness :
    (∀ c ∈ [Frame.mk ["a"] ["int64"] 3],
        c.cols = (Frame.mk ["a"] ["int64"] 2).cols ∧
        c.dts = (Frame.mk ["a"] ["int64"] 2).dts) ∧
    (Frame.mk ["b"] ["int64"] 1).cols ≠ (Frame.mk ["a"] ["int64"] 2).cols ∧
    iterSDF true [Frame.mk ["a"] ["int64"] 2, Frame.mk ["a"] ["int64"] 3,
        Frame.mk ["b"] ["int64"] 1, Frame.mk ["a"] ["int64"] 4] =
      ([Frame.mk ["a"] ["int64"] 2, Frame.mk ["a"] ["int64"] 3],
       some (SchemaErr.nameMismatch 5 ["a"] ["b"])) := by
  refine ⟨by decide, by decide, ?_⟩
  have h := schema_name_mismatch_eager (Frame.mk ["a"] ["int64"] 2)
    (Frame.mk ["b"] ["int64"] 1) [Frame.mk ["a"] ["int64"] 3]
    [Frame.mk ["a"] ["int64"] 4] (by decide) (by decide)
  simpa using h

/-- The row join distributes over concatenation of the right chunk. -/
theorem mergeRow_append (a : Row) (x y : List Row) :
    mergeRow a (x ++ y) = mergeRow a x ++ mergeRow a y := by
  simp [mergeRow, List.filterMap_append]

/-- Joining one more left row prepends its matches. -/
theorem mergeDF_cons (a : Row) (A B : List Row) :
    mergeDF (a :: A) B = mergeRow a B ++ mergeDF A B := rfl

/-- A join with an empty right chunk is empty. -/
theorem mergeDF_nil_right (A : List Row) : mergeDF A [] = [] := by
  induction A with
  | nil => rfl
  | cons a A ih => simpa [mergeDF_cons, mergeRow] using ih

/-- The chunk join distributes over concatenation on the left, exactly. -/
theorem mergeDF_append_left (x y B : List Row) :
    mergeDF (x ++ y) B = mergeDF x B ++ mergeDF y B := by
  simp [mergeDF, List.map_append, List.flatten_append]

/-- Exchanging the two middle blocks of a four-block concatenation is a
permutation. -/
theorem perm_middle_exchange {α : Type} (a b c d : List α) :
    List.Perm (a ++ b ++ (c ++ d)) (a ++ c ++ (b ++ d)) := by
  have h2 : List.Perm (b ++ (c ++ d)) (c ++ (b ++ d)) := by
    rw [← List.append_assoc, ← List.append_assoc]
    exact List.perm_append_comm.append_right d
  rw [List.append_assoc, List.append_assoc]
  exact h2.append_left a

/-- The chunk join distributes over concatenation on the right, up to a
permutation of the output rows. -/
theorem mergeDF_append_right_perm (A x y : List Row) :
    List.Perm (mergeDF A (x ++ y)) (mergeDF A x ++ mergeDF A y) := by
  induction A with
  | nil => exact List.Perm.refl []
  | cons a A ih =>
    rw [mergeDF_cons, mergeDF_cons, mergeDF_cons, mergeRow_append]
    exact List.Perm.trans (ih.append_left (mergeRow a x ++ mergeRow a y))
      (perm_middle_exchange (mergeRow a x) (mergeRow a y) (mergeDF A x) (mergeDF A y))

/-- Joining one left chunk against every right chunk in turn is, up to
permutation, the join against the materialized right table. -/
theorem flatten_map_mergeDF_perm (c : List Row) (CB : List (List Row)) :
    List.Perm ((CB.map (fun df2 => mergeDF c df2)).flatten) (mergeDF c CB.flatten) := by
  induction CB with
  | nil => simp [mergeDF_nil_right]
  | cons d CB ih =>
    simp only [List.map_cons, List.flatten_cons]
    exact List.Perm.trans (ih.append_left (mergeDF c d))
      (mergeDF_append_right_perm c d CB.flatten).symm

/-- C6: the double-loop streaming merge yields, over any chunking of the
two operands, the same multiset of joined rows as the single-chunk merge
of the materialized tables. -/
theorem merge_chunking_invariant (CA CB : List (List Row)) :
    List.Perm ((iterator_merge CA CB).flatten) (mergeDF CA.flatten CB.flatten) := by
  induction CA with
  | nil => exact List.Perm.refl []
  | cons c CA ih =>
    have h2 : iterator_merge (c :: CA) CB =
        CB.map (fun df2 => mergeDF c df2) ++ iterator_merge CA CB := by
      simp [iterator_merge]
    rw [h2, List.flatten_append, List.flatten_cons, mergeDF_append_left]
    exact (flatten_map_mergeDF_perm c CB).append ih

/-- Membership in an insertion: the inserted key or an old member. -/
theorem mem_insertKey (a k : Nat) (l : List Nat) :
    a ∈ insertKey k l ↔ a = k ∨ a ∈ l := by
  induction l with
  | nil => simp [insertKey]
  | cons x xs ih =>
    by_cases h1 : k < x
    · simp [insertKey, h1]
    · by_cases h2 : k = x
      · subst h2
        simp [insertKey, h1]
      · simp [insertKey, h1, h2, List.mem_cons, ih]
        tauto

/-- Insertion preserves strict increase. -/
theorem pairwise_insertKey (k : Nat) (l : List Nat)
    (h : l.Pairwise (· < ·)) : (insertKey k l).Pairwise (· < ·) := by
  induction l with
  | nil => simp [insertKey]
  | cons x xs ih =>
    rcases List.pairwise_cons.1 h with ⟨hx, hxs⟩
    by_cases h1 : k < x
    · simp only [insertKey, if_pos h1]
      refine List.pairwise_cons.2 ⟨?_, h⟩
      intro b hb
      rcases List.mem_cons.1 hb with rfl | hb
      · exact h1
      · exact lt_trans h1 (hx b hb)
    · by_cases h2 : k = x
      · subst h2
        simp only [insertKey, if_neg h1, if_pos rfl]
        exact h
      · have hxk : x < k := by omega
        simp only [insertKey, if_neg h1, if_neg h2]
        refine List.pairwise_cons.2 ⟨?_, ih hxs⟩
        intro b hb
        rcases (mem_insertKey b k xs).1 hb with rfl | hb
        · exact hxk
        · exact hx b hb

/-- The key list of a row list is strictly increasing. -/
theorem keyList_pairwise (rows : List Row) : (keyList rows).Pairwise (· < ·) := by
  induction rows with
  | nil => simp [keyList]
  | cons r rows ih =>
    have h : keyList (r :: rows) = insertKey r.1 (keyList rows) := rfl
    rw [h]
    exact pairwise_insertKey r.1 (keyList rows) ih

/-- The key list holds exactly the keys occurring in the rows. -/
theorem mem_keyList (a : Nat) (rows : List Row) :
    a ∈ keyList rows ↔ a ∈ rows.map (fun r => r.1) := by
  induction rows with
  | nil => simp [keyList]
  | cons r rows ih =>
    have h : keyList (r :: rows) = insertKey r.1 (keyList rows) := rfl
    rw [h, mem_insertKey]
    simp [ih]

/-- Two strictly increasing lists with the same members are equal. -/
theorem sorted_eq_of_mem_iff :
    ∀ (l1 l2 : List Nat), l1.Pairwise (· < ·) → l2.Pairwise (· < ·) →
      (∀ a, a ∈ l1 ↔ a ∈ l2) → l1 = l2
  | [], [], _, _, _ => rfl
  | [], b :: t2, _, _, hm =>
    absurd ((hm b).2 (List.mem_cons_self b t2)) (List.not_mem_nil b)
  | a :: t1, [], _, _, hm =>
    absurd ((hm a).1 (List.mem_cons_self a t1)) (List.not_mem_nil a)
  | a :: t1, b :: t2, h1, h2, hm => by
    rcases List.pairwise_cons.1 h1 with ⟨ha, ht1⟩
    rcases List.pairwise_cons.1 h2 with ⟨hb, ht2⟩
    have hab : a = b := by
      rcases List.mem_cons.1 ((hm a).1 (List.mem_cons_self a t1)) with h | h
      · exact h
      · rcases List.mem_cons.1 ((hm b).2 (List.mem_cons_self b t2)) with h' | h'
        · exact h'.symm
        · exact absurd (lt_trans (hb a h) (ha b h')) (lt_irrefl b)
    subst hab
    have hts : t1 = t2 := by
      refine sorted_eq_of_mem_iff t1 t2 ht1 ht2 (fun x => ⟨fun hx => ?_, fun hx => ?_⟩)
      · rcases List.mem_cons.1 ((hm x).1 (List.mem_cons_of_mem a hx)) with h | h
        · subst h
          exact absurd (ha x hx) (lt_irrefl x)
        · exact h
      · rcases List.mem_cons.1 ((hm x).2 (List.mem_cons_of_mem a hx)) with h | h
        · subst h
          exact absurd (hb x hx) (lt_irrefl x)
        · exact h
    rw [hts]

/-- keySum splits over concatenation. -/
theorem keySum_append (x y : List Row) (k : Nat) :
    keySum (x ++ y) k = keySum x k + keySum y k := by
  simp [keySum, List.filter_append]

/-- A row with a different key does not change keySum. -/
theorem keySum_cons_ne (r : Row) (rows : List Row) (k : Nat) (h : r.1 ≠ k) :
    keySum (r :: rows) k = keySum rows k := by
  simp [keySum, List.filter_cons, h]

/-- keySum vanishes for keys that do not occur. -/
theorem keySum_eq_zero (rows : List Row) (k : Nat)
    (h : k ∉ rows.map (fun r => r.1)) : keySum rows k = 0 := by
  induction rows with
  | nil => rfl
  | cons r rows ih =>
    simp only [List.map_cons, List.mem_cons, not_or] at h
    rw [keySum_cons_ne r rows k (fun hh => h.1 hh.symm)]
    exact ih h.2

/-- Filtering a strictly increasing list for one key gives that key at
most once. -/
theorem filter_eq_of_pairwise (l : List Nat) (k : Nat) (h : l.Pairwise (· < ·)) :
    l.filter (fun x => x == k) = if k ∈ l then [k] else [] := by
  induction l with
  | nil => simp
  | cons x xs ih =>
    rcases List.pairwise_cons.1 h with ⟨hx, hxs⟩
    by_cases hxk : x = k
    · subst hxk
      have hnot : x ∉ xs := fun hmem => absurd (hx x hmem) (lt_irrefl x)
      simp [List.filter_cons, ih hxs, hnot]
    · simp [List.filter_cons, hxk, ih hxs, List.mem_cons, Ne.symm hxk]

/-- Re-aggregating an aggregated chunk keeps every per-key total. -/
theorem keySum_groupbySum (rows : List Row) (k : Nat) :
    keySum (groupbySum rows) k = keySum rows k := by
  have hfil : (groupbySum rows).filter (fun r => r.1 == k)
      = ((keyList rows).filter (fun x => x == k)).map (fun x => (x, keySum rows x)) := by
    simp only [groupbySum, List.filter_map]
    rfl
  rw [keySum, hfil, filter_eq_of_pairwise (keyList rows) k (keyList_pairwise rows)]
  by_cases h : k ∈ keyList rows
  · simp [if_pos h, keySum]
  · rw [if_neg h]
    simp only [List.map_nil, List.sum_nil]
    exact (keySum_eq_zero rows k (fun hm => h ((mem_keyList k rows).2 hm))).symm

/-- The keys of an aggregated chunk are its key list. -/
theorem map_fst_groupbySum (rows : List Row) :
    (groupbySum rows).map (fun r => r.1) = keyList rows := by
  simp only [groupbySum, List.map_map]
  exact List.map_id _

/-- Aggregated chunks are equal as soon as they have the same keys and
the same per-key totals. -/
theorem groupbySum_ext (r1 r2 : List Row)
    (hsum : ∀ k, keySum r1 k = keySum r2 k)
    (hmem : ∀ a, a ∈ r1.map (fun r => r.1) ↔ a ∈ r2.map (fun r => r.1)) :
    groupbySum r1 = groupbySum r2 := by
  have hk : keyList r1 = keyList r2 :=
    sorted_eq_of_mem_iff (keyList r1) (keyList r2) (keyList_pairwise r1)
      (keyList_pairwise r2) (fun a => by rw [mem_keyList, mem_keyList]; exact hmem a)
  unfold groupbySum
  rw [hk]
  exact List.map_congr_left (fun k _ => by rw [hsum k])

/-- Concatenating the per-chunk aggregates keeps every per-key total of
the materialized table. -/
theorem keySum_flatten_groupbySum (chunks : List (List Row)) (k : Nat) :
    keySum ((chunks.map groupbySum).flatten) k = keySum chunks.flatten k := by
  induction chunks with
  | nil => rfl
  | cons c chunks ih =>
    simp only [List.map_cons, List.flatten_cons, keySum_append, keySum_groupbySum, ih]

/-- Concatenating the per-chunk aggregates keeps the key set of the
materialized table. -/
theorem mem_fst_flatten_groupbySum (chunks : List (List Row)) (a : Nat) :
    a ∈ ((chunks.map groupbySum).flatten).map (fun r => r.1) ↔
      a ∈ (chunks.flatten).map (fun r => r.1) := by
  induction chunks with
  | nil => simp
  | cons c chunks ih =>
    simp only [List.map_cons, List.flatten_cons, List.map_append, List.mem_append, ih]
    rw [map_fst_groupbySum]
    simp [mem_keyList]

/-- The batch two-level groupby equals the single-pass groupby of the
materialized table. -/
theorem groupby_batch_eq_single_pass (chunks : List (List Row)) :
    groupby_batch chunks = groupbySum chunks.flatten :=
  groupbySum_ext _ _ (keySum_flatten_groupbySum chunks)
    (fun a => mem_fst_flatten_groupbySum chunks a)

/-- Dropping the head of a nonempty list keeps the last element. -/
theorem getLast?_cons_of_ne_nil {α : Type} (x : α) (l : List α) (h : l ≠ []) :
    (x :: l).getLast? = l.getLast? := by
  cases l with
  | nil => exact absurd rfl h
  | cons y ys => simp [List.getLast?_cons_cons]

/-- The last chunk of the cum stream started with accumulator agg is the
re-aggregation of agg concatenated with all remaining per-chunk partials. -/
theorem iterate_cum_aux_getLast :
    ∀ (chunks : List (List Row)) (agg : List Row), chunks ≠ [] →
      (iterate_cum_aux (some agg) chunks).getLast? =
        some (groupbySum (agg ++ (chunks.map groupbySum).flatten))
  | [], _, h => absurd rfl h
  | [df], agg, _ => by
    simp [iterate_cum_aux]
  | df :: df2 :: rest, agg, _ => by
    have hne : iterate_cum_aux (some (agg ++ groupbySum df)) (df2 :: rest) ≠ [] := by
      simp [iterate_cum_aux]
    have ih := iterate_cum_aux_getLast (df2 :: rest) (agg ++ groupbySum df) (by simp)
    calc (iterate_cum_aux (some agg) (df :: df2 :: rest)).getLast?
        = (iterate_cum_aux (some (agg ++ groupbySum df)) (df2 :: rest)).getLast? := by
          rw [show iterate_cum_aux (some agg) (df :: df2 :: rest) =
            groupbySum (agg ++ groupbySum df) ::
              iterate_cum_aux (some (agg ++ groupbySum df)) (df2 :: rest) from rfl]
          exact getLast?_cons_of_ne_nil _ _ hne
      _ = some (groupbySum ((agg ++ groupbySum df) ++
            ((df2 :: rest).map groupbySum).flatten)) := ih
      _ = some (groupbySum (agg ++ ((df :: df2 :: rest).map groupbySum).flatten)) := by
          simp [List.append_assoc]

/-- C1: for every nonempty chunking and the default sum aggregations, the
final chunk of groupby_streaming with strategy cum equals the batch
groupby, which itself equals the single-pass groupby of the materialized
table. -/
theorem groupby_cum_batch_agree (chunks : List (List Row)) (h : chunks ≠ []) :
    (iterate_cum chunks).getLast? = some (groupby_batch chunks) ∧
    groupby_batch chunks = groupbySum chunks.flatten := by
  refine ⟨?_, groupby_batch_eq_single_pass chunks⟩
  match chunks with
  | [] => exact absurd rfl h
  | [df] => simp [iterate_cum, iterate_cum_aux, groupby_batch]
  | df :: df2 :: rest =>
    have hne : iterate_cum_aux (some (groupbySum df)) (df2 :: rest) ≠ [] := by
      simp [iterate_cum_aux]
    have ih := iterate_cum_aux_getLast (df2 :: rest) (groupbySum df) (by simp)
    calc (iterate_cum (df :: df2 :: rest)).getLast?
        = (iterate_cum_aux (some (groupbySum df)) (df2 :: rest)).getLast? := by
          rw [show iterate_cum (df :: df2 :: rest) =
            groupbySum (groupbySum df) ::
              iterate_cum_aux (some (groupbySum df)) (df2 :: rest) from rfl]
          exact getLast?_cons_of_ne_nil _ _ hne
      _ = some (groupbySum (groupbySum df ++ ((df2 :: rest).map groupbySum).flatten)) := ih
      _ = some (groupby_batch (df :: df2 :: rest)) := by
          simp [groupby_batch]

/-- Witness: the three groupby computations agree on the spec's concrete
scenario, rows (3,5), (4,6), (3,7) chunked one row per chunk. -/
theorem groupby_cum_batch_agree_witness :
    (([[(3, 5)], [(4, 6)], [(3, 7)]] : List (List Row)) ≠ []) ∧
    ((iterate_cum ([[(3, 5)], [(4, 6)], [(3, 7)]] : List (List Row))).getLast? =
        some (groupby_batch ([[(3, 5)], [(4, 6)], [(3, 7)]] : List (List Row))) ∧
      groupby_batch ([[(3, 5)], [(4, 6)], [(3, 7)]] : List (List Row)) =
        groupbySum ([[(3, 5)], [(4, 6)], [(3, 7)]] : List (List Row)).flatten) :=
  ⟨by decide, groupby_cum_batch_agree [[(3, 5)], [(4, 6)], [(3, 7)]] (by decide)⟩
